import Mathlib

/-!
Shallow embedding of the octopoid-server task lifecycle engine.

Sources embedded here:
- `src/routes/tasks.ts` (list, patch, hook completion, claim, submit, accept, reject)
- `src/routes/scheduler.ts` (poll)
- `src/scheduled/lease-monitor.ts` (lease reconciler)
- the server configuration module (`DEFAULT_CONFIG`)

Modelling conventions:
- Timestamps (both SQLite `datetime('now')` strings and JS ISO strings) are
  modelled as `Nat`; the source only ever compares them, and both encodings
  are order-isomorphic to their time values.
- SQL `NULL` is `Option.none`; `x = ?` comparisons against `NULL` columns
  are false, matching SQLite semantics.
- JavaScript truthiness (`||`, `!x`, `if (x)`) on strings and numbers is
  modelled by `truthyStr` / `truthyNat` (empty string and zero are falsy).
- The `hooks` column holds a JSON array in the source; it is modelled as a
  structured `List Hook` (the JSON-parse-failure branch of the hook
  endpoint is therefore unreachable in the model).
- The database is a record of lists of rows; a SQL `UPDATE ... WHERE` is a
  `List.map` guarded by the WHERE predicate, and its `meta.changes` count
  is the number of rows satisfying the predicate.
-/

namespace Octopoid

/-- A named sub-gate attached to a task: one element of the `hooks` JSON array. -/
structure Hook where
  name : String
  status : String
  evidence : Option String := none
  deriving DecidableEq, Repr

/-- A row of the `tasks` table, with the columns used by the lifecycle engine
(`migrations/*.sql`, the INSERT in `POST /tasks`, and the PATCH whitelist).
`type` is a Lean keyword, so that column is named `ty` here. -/
structure Task where
  id : String
  file_path : String := ""
  title : Option String := none
  queue : String := "incoming"
  priority : String := "P2"
  complexity : Option String := none
  role : Option String := none
  ty : Option String := none
  branch : Option String := none
  blocked_by : Option String := none
  claimed_by : Option String := none
  claimed_at : Option Nat := none
  orchestrator_id : Option String := none
  lease_expires_at : Option Nat := none
  commits_count : Option Nat := none
  turns_used : Option Nat := none
  attempt_count : Option Nat := none
  has_plan : Option Bool := none
  plan_id : Option String := none
  project_id : Option String := none
  auto_accept : Bool := false
  rejection_count : Nat := 0
  pr_number : Option Nat := none
  pr_url : Option String := none
  checks : Option String := none
  check_results : Option String := none
  needs_rebase : Option Bool := none
  last_rebase_attempt_at : Option Nat := none
  staging_url : Option String := none
  submitted_at : Option Nat := none
  completed_at : Option Nat := none
  execution_notes : Option String := none
  hooks : Option (List Hook) := none
  flow : Option String := some "default"
  flow_overrides : Option String := none
  scope : Option String := none
  created_at : Nat := 0
  updated_at : Nat := 0
  version : Nat := 1
  deriving DecidableEq, Repr

/-- A row of the append-only `task_history` table. -/
structure HistoryEntry where
  task_id : String
  event : String
  agent : Option String := none
  details : Option String := none
  timestamp : Nat
  deriving DecidableEq, Repr

/-- A row of the `roles` table (only the columns the claim path reads). -/
structure Role where
  name : String
  claims_from : Option String := none
  deriving DecidableEq, Repr

/-- A row of the `orchestrators` table (only the columns the reconciler and
poll read). -/
structure Orchestrator where
  id : String
  status : String := "active"
  last_heartbeat : Nat := 0
  scope : Option String := none
  deriving DecidableEq, Repr

/-- A row of the `flows` table; `states` is the parsed JSON array. -/
structure Flow where
  name : String
  states : List String
  deriving DecidableEq, Repr

/-- The persistent store: the tables the lifecycle engine touches. -/
structure DB where
  tasks : List Task := []
  history : List HistoryEntry := []
  orchestrators : List Orchestrator := []
  roles : List Role := []
  flows : List Flow := []
  deriving DecidableEq, Repr

/-- HTTP outcome of a handler, abstracting the JSON payload away. -/
inductive Status where
  | ok
  | badRequest
  | notFound
  | conflict
  deriving DecidableEq, Repr

/-- Server configuration (`ServerConfig` in the config module). -/
structure ServerConfig where
  defaultLeaseDurationSeconds : Nat
  maxLeaseDurationSeconds : Nat
  heartbeatIntervalSeconds : Nat
  staleOrchestratorTimeoutSeconds : Nat
  defaultPageSize : Nat
  maxPageSize : Nat
  deriving DecidableEq, Repr

/-- `DEFAULT_CONFIG` from the config module. -/
def DEFAULT_CONFIG : ServerConfig :=
  { defaultLeaseDurationSeconds := 300
    maxLeaseDurationSeconds := 3600
    heartbeatIntervalSeconds := 30
    staleOrchestratorTimeoutSeconds := 120
    defaultPageSize := 50
    maxPageSize := 500 }

/-- `getConfig()` returns the constant default configuration. -/
def getConfig : ServerConfig := DEFAULT_CONFIG

/-- JavaScript truthiness for an optional string: `undefined`/`null` and the
empty string are falsy. Used wherever the source applies `||` or `if (x)` to
a string-valued field. -/
def truthyStr : Option String → Option String
  | none => none
  | some s => if s = "" then none else some s

/-- JavaScript truthiness for an optional number: `undefined`/`null` and `0`
are falsy. -/
def truthyNat : Option Nat → Option Nat
  | none => none
  | some n => if n = 0 then none else some n

/-- The WHERE predicate of every lifecycle transition UPDATE:
`WHERE id = ? AND queue = ? AND version = ?`. -/
def condMatches (t : Task) (id q : String) (v : Nat) : Bool :=
  t.id == id && t.queue == q && t.version == v

/-- Apply a conditional `UPDATE tasks SET ... WHERE id = ? AND queue = ? AND
version = ?`: rows satisfying the predicate are rewritten by `f`. -/
def condUpdateTasks (tasks : List Task) (id q : String) (v : Nat) (f : Task → Task) : List Task :=
  tasks.map fun t => if condMatches t id q v then f t else t

/-- `meta.changes` of the conditional UPDATE: the number of matched rows. -/
def condUpdateChanges (tasks : List Task) (id q : String) (v : Nat) : Nat :=
  (tasks.filter fun t => condMatches t id q v).length

/-- Insert into a list sorted by `le` (helper for `orderBy`). -/
def insertLe (le : Task → Task → Bool) (a : Task) : List Task → List Task
  | [] => [a]
  | b :: bs => if le a b then a :: b :: bs else b :: insertLe le a bs

/-- `ORDER BY` as an insertion sort under a boolean comparator. -/
def orderBy (le : Task → Task → Bool) : List Task → List Task
  | [] => []
  | a :: as => insertLe le a (orderBy le as)

/-- SQL `col IN (...)` against a possibly-NULL column: NULL is never IN. -/
def inFilter (filt : Option (List String)) (v : Option String) : Bool :=
  match filt with
  | none => true
  | some xs =>
    match v with
    | none => false
    | some s => xs.contains s

/-- `SELECT ... WHERE id = ?` returning the first matching row. -/
def findTask (tasks : List Task) (id : String) : Option Task :=
  tasks.find? fun t => t.id == id

/-! ### GET /tasks (list) — `tasksRoute.get` in `src/routes/tasks.ts` -/

/-- Parsed query parameters of `GET /tasks`. Comma-separated parameters
(`queue`, `priority`, `role`) are already split into lists; an absent
parameter is `none`. -/
structure ListQuery where
  queue : Option (List String) := none
  priority : Option (List String) := none
  role : Option (List String) := none
  claimed_by : Option String := none
  project_id : Option String := none
  scope : Option String := none
  limit : Option Nat := none
  offset : Nat := 0
  sortByPriority : Bool := false
  deriving Repr

/-- The WHERE clause built by the list handler (all conditions ANDed). -/
def listPred (q : ListQuery) (t : Task) : Bool :=
  (match q.queue with | none => true | some qs => qs.contains t.queue) &&
  (match q.priority with | none => true | some ps => ps.contains t.priority) &&
  inFilter q.role t.role &&
  (match q.claimed_by with | none => true | some cb => t.claimed_by == some cb) &&
  (match q.project_id with | none => true | some p => t.project_id == some p) &&
  (match q.scope with | none => true | some s => t.scope == some s)

/-- The ORDER BY of the list handler: `priority ASC, created_at ASC` when
`sort=priority`, else `created_at DESC`. -/
def listLe (sortByPriority : Bool) (a b : Task) : Bool :=
  if sortByPriority then
    decide (a.priority < b.priority) ||
      (a.priority == b.priority && decide (a.created_at ≤ b.created_at))
  else
    decide (b.created_at ≤ a.created_at)

/-- `GET /tasks`: filter, order, then apply LIMIT/OFFSET. The effective limit
is `min(limit ?? defaultPageSize, maxPageSize)`. -/
def listTasks (tasks : List Task) (q : ListQuery) : List Task :=
  let effLimit := min (q.limit.getD getConfig.defaultPageSize) getConfig.maxPageSize
  ((orderBy (listLe q.sortByPriority) (tasks.filter (listPred q))).drop q.offset).take effLimit

/-! ### GET /scheduler/poll — `src/routes/scheduler.ts` -/

/-- The lightweight projection of a provisional task returned by the poll. -/
structure ProvisionalRow where
  id : String
  hooks : Option (List Hook)
  pr_number : Option Nat
  claimed_by : Option String
  deriving DecidableEq, Repr

/-- The aggregate snapshot returned by `GET /scheduler/poll`. -/
structure PollResponse where
  incoming_count : Nat
  claimed_count : Nat
  provisional_count : Nat
  provisional_tasks : List ProvisionalRow
  orchestrator_registered : Bool
  flows : List Flow
  deriving DecidableEq, Repr

/-- `GET /scheduler/poll?orchestrator_id=...`. The handler takes no scope
parameter: its queue counts and provisional projection range over every
task in the store. -/
def schedulerPoll (db : DB) (orchestratorId : Option String) : PollResponse :=
  { incoming_count := (db.tasks.filter fun t => t.queue == "incoming").length
    claimed_count := (db.tasks.filter fun t => t.queue == "claimed").length
    provisional_count := (db.tasks.filter fun t => t.queue == "provisional").length
    provisional_tasks :=
      (db.tasks.filter fun t => t.queue == "provisional").map fun t =>
        { id := t.id, hooks := t.hooks, pr_number := t.pr_number, claimed_by := t.claimed_by }
    orchestrator_registered :=
      match orchestratorId with
      | some oid => ((db.orchestrators.find? fun o => o.id == oid)).isSome
      | none => false
    flows := db.flows }

/-! ### POST /tasks/claim — claim selector plus atomic claim write -/

/-- Body of `POST /tasks/claim`. The source accepts `role_filter` and
`type_filter` as a single string or an array; a single string is modelled
as a one-element list. -/
structure ClaimTaskRequest where
  orchestrator_id : Option String := none
  agent_name : Option String := none
  role_filter : Option (List String) := none
  type_filter : Option (List String) := none
  queue : Option String := none
  scope : Option String := none
  lease_duration_seconds : Option Nat := none
  deriving Repr

/-- Queue resolution of the claim handler: `body.queue || 'incoming'`, and
when a role filter is present and `body.queue` is falsy, the `claims_from`
hint of the FIRST role of the filter (when that role is registered with a
truthy hint) overrides the default. -/
def resolveClaimQueue (roles : List Role) (body : ClaimTaskRequest) : String :=
  let base := (truthyStr body.queue).getD "incoming"
  match body.role_filter, truthyStr body.queue with
  | some rs, none =>
    match rs.head? with
    | some roleName =>
      match roles.find? fun r => r.name == roleName with
      | some r =>
        match truthyStr r.claims_from with
        | some cf => cf
        | none => base
      | none => base
    | none => base
  | _, _ => base

/-- The WHERE clause of the claim selection query: target queue, unblocked,
role/type IN filters, and scope equality when a scope condition was added. -/
def claimEligible (t : Task) (claimQueue : String) (roleF typeF : Option (List String))
    (scopeF : Option String) : Bool :=
  t.queue == claimQueue &&
  (t.blocked_by == none || t.blocked_by == some "") &&
  inFilter roleF t.role &&
  inFilter typeF t.ty &&
  (match scopeF with | none => true | some s => t.scope == some s)

/-- `ORDER BY priority ASC, created_at ASC` of the claim selection query. -/
def claimLe (a b : Task) : Bool :=
  decide (a.priority < b.priority) ||
    (a.priority == b.priority && decide (a.created_at ≤ b.created_at))

/-- The claim selection query (`LIMIT 1` over the ordered, filtered rows). -/
def selectClaimTask (tasks : List Task) (claimQueue : String)
    (roleF typeF : Option (List String)) (scopeF : Option String) : Option Task :=
  (orderBy claimLe (tasks.filter fun t => claimEligible t claimQueue roleF typeF scopeF)).head?

/-- `body.lease_duration_seconds || config.defaultLeaseDurationSeconds`
(JavaScript `||`: an absent or zero duration falls back to the default;
no maximum is applied). -/
def resolveLeaseDuration (body : ClaimTaskRequest) : Nat :=
  (truthyNat body.lease_duration_seconds).getD getConfig.defaultLeaseDurationSeconds

/-- The atomic claim write and its history side effect, given the snapshot
`task` returned by the selection query. The UPDATE is conditional on
`(id, queue, version)` as observed in the snapshot; zero matched rows is a
409 CONFLICT with no further effects. -/
def claimWritePhase (db : DB) (task : Task) (claimQueue : String)
    (body : ClaimTaskRequest) (now : Nat) : DB × Status :=
  let leaseDuration := resolveLeaseDuration body
  let newVersion := task.version + 1
  let leaseExpiry := now + leaseDuration
  let targetQueue := if claimQueue == "provisional" then "provisional" else "claimed"
  if condUpdateChanges db.tasks task.id claimQueue task.version = 0 then
    (db, Status.conflict)
  else
    let tasks2 := condUpdateTasks db.tasks task.id claimQueue task.version fun t =>
      { t with
          queue := targetQueue
          version := newVersion
          claimed_by := body.agent_name
          claimed_at := some now
          lease_expires_at := some leaseExpiry
          orchestrator_id := body.orchestrator_id
          updated_at := now }
    let historyEvent := if claimQueue == "provisional" then "review_claimed" else "claimed"
    ({ db with
        tasks := tasks2
        history := db.history ++
          [{ task_id := task.id, event := historyEvent, agent := body.agent_name, timestamp := now }] },
     Status.ok)

/-- Role-filter validation of the claim handler: when any roles are
registered, every role of the filter must be registered; returns the first
unknown role. -/
def unknownRoleInFilter (roles : List Role) (rf : List String) : Option String :=
  if roles.length > 0 then
    rf.find? fun rn => ((roles.find? fun r => r.name == rn)).isNone
  else
    none

/-- Selection plus write of the claim handler, after validation passed. -/
def claimSelectAndWrite (db : DB) (body : ClaimTaskRequest) (now : Nat) : DB × Status :=
  let claimQueue := resolveClaimQueue db.roles body
  match selectClaimTask db.tasks claimQueue body.role_filter body.type_filter
      (truthyStr body.scope) with
  | none => (db, Status.notFound)
  | some task => claimWritePhase db task claimQueue body now

/-- `POST /tasks/claim` end to end. Validation requires truthy
`orchestrator_id` and `agent_name` only; when a role filter is present it
is validated against registered roles. `scope` is never required and the
orchestrator registration is never consulted. -/
def claimTask (db : DB) (body : ClaimTaskRequest) (now : Nat) : DB × Status :=
  if (truthyStr body.orchestrator_id).isNone || (truthyStr body.agent_name).isNone then
    (db, Status.badRequest)
  else
    match body.role_filter with
    | some rs =>
      match unknownRoleInFilter db.roles rs with
      | some _ => (db, Status.badRequest)
      | none => claimSelectAndWrite db body now
    | none => claimSelectAndWrite db body now

/-! ### POST /tasks/:id/submit -/

/-- Body of `POST /tasks/:id/submit`. Presence is checked with
`=== undefined`, so zero counts are valid. -/
structure SubmitTaskRequest where
  commits_count : Option Nat := none
  turns_used : Option Nat := none
  check_results : Option String := none
  execution_notes : Option String := none
  deriving Repr

/-- `BURNOUT_TURN_THRESHOLD` in the submit handler. -/
def BURNOUT_TURN_THRESHOLD : Nat := 80

/-- `MAX_TURN_LIMIT` in the submit handler. -/
def MAX_TURN_LIMIT : Nat := 100

/-- Burnout detection of the submit handler: zero commits with at least the
turn threshold, or at least the hard turn limit. -/
def burnoutDetected (commits turns : Nat) : Bool :=
  (commits == 0 && decide (turns ≥ BURNOUT_TURN_THRESHOLD)) ||
    decide (turns ≥ MAX_TURN_LIMIT)

/-- Rendering of the `JSON.stringify` burnout detail payload
(`commits_count`, `turns_used`, `threshold`), abstracted to a flat string. -/
def burnoutDetailString (commits turns : Nat) : String :=
  "commits_count=" ++ toString commits ++ ";turns_used=" ++ toString turns ++
    ";threshold=" ++ toString BURNOUT_TURN_THRESHOLD

/-- The atomic submit write and its history side effects, given the
snapshot `task` read before the guards. Conditional on
`(id, queue='claimed', version)`; zero matched rows is 409 CONFLICT. -/
def submitWritePhase (db : DB) (task : Task) (commits turns : Nat)
    (check_results execution_notes : Option String) (now : Nat) : DB × Status :=
  let burnout := burnoutDetected commits turns
  let targetQueue := if burnout then "needs_continuation" else "provisional"
  if condUpdateChanges db.tasks task.id "claimed" task.version = 0 then
    (db, Status.conflict)
  else
    let tasks2 := condUpdateTasks db.tasks task.id "claimed" task.version fun t =>
      { t with
          queue := targetQueue
          version := t.version + 1
          commits_count := some commits
          turns_used := some turns
          check_results := truthyStr check_results
          execution_notes := truthyStr execution_notes
          submitted_at := some now
          updated_at := now }
    let submittedEntry : HistoryEntry :=
      { task_id := task.id, event := "submitted", agent := truthyStr task.claimed_by, timestamp := now }
    let newEntries :=
      if burnout then
        [submittedEntry,
         { task_id := task.id, event := "burnout_detected",
           details := some (burnoutDetailString commits turns), timestamp := now }]
      else
        [submittedEntry]
    ({ db with tasks := tasks2, history := db.history ++ newEntries }, Status.ok)

/-- `POST /tasks/:id/submit` end to end: validation, snapshot read, queue
and lease guards, then the conditional write. -/
def submitTask (db : DB) (taskId : String) (body : SubmitTaskRequest) (now : Nat) : DB × Status :=
  match body.commits_count, body.turns_used with
  | some commits, some turns =>
    match findTask db.tasks taskId with
    | none => (db, Status.notFound)
    | some task =>
      if task.queue ≠ "claimed" then
        (db, Status.conflict)
      else
        match task.lease_expires_at with
        | none => (db, Status.conflict)
        | some e =>
          if e < now then
            (db, Status.conflict)
          else
            submitWritePhase db task commits turns body.check_results body.execution_notes now
  | _, _ => (db, Status.badRequest)

/-! ### POST /tasks/:id/accept -/

/-- Body of `POST /tasks/:id/accept`. -/
structure AcceptTaskRequest where
  accepted_by : Option String := none
  completed_at : Option Nat := none
  deriving Repr

/-- The atomic accept write, history append, and dependent unblock, given
the snapshot `task`. Conditional on `(id, queue='provisional', version)`.
The unblock UPDATE clears `blocked_by` on every task whose `blocked_by`
equals the accepted task's id, and runs only after the primary write
succeeded. -/
def acceptWritePhase (db : DB) (task : Task) (body : AcceptTaskRequest) (now : Nat) : DB × Status :=
  let completedAt := (truthyNat body.completed_at).getD now
  if condUpdateChanges db.tasks task.id "provisional" task.version = 0 then
    (db, Status.conflict)
  else
    let tasks2 := condUpdateTasks db.tasks task.id "provisional" task.version fun t =>
      { t with
          queue := "done"
          version := t.version + 1
          completed_at := some completedAt
          updated_at := now }
    let tasks3 := tasks2.map fun t =>
      if t.blocked_by == some task.id then { t with blocked_by := none, updated_at := now } else t
    ({ db with
        tasks := tasks3
        history := db.history ++
          [{ task_id := task.id, event := "accepted", agent := body.accepted_by, timestamp := now }] },
     Status.ok)

/-- `POST /tasks/:id/accept` end to end. -/
def acceptTask (db : DB) (taskId : String) (body : AcceptTaskRequest) (now : Nat) : DB × Status :=
  if (truthyStr body.accepted_by).isNone then
    (db, Status.badRequest)
  else
    match findTask db.tasks taskId with
    | none => (db, Status.notFound)
    | some task =>
      if task.queue ≠ "provisional" then
        (db, Status.conflict)
      else
        acceptWritePhase db task body now

/-! ### POST /tasks/:id/reject -/

/-- Body of `POST /tasks/:id/reject`. -/
structure RejectTaskRequest where
  reason : Option String := none
  rejected_by : Option String := none
  deriving Repr

/-- The atomic reject write and its history append, given the snapshot
`task`. Conditional on `(id, queue='provisional', version)`. -/
def rejectWritePhase (db : DB) (task : Task) (rejected_by : Option String) (now : Nat) : DB × Status :=
  if condUpdateChanges db.tasks task.id "provisional" task.version = 0 then
    (db, Status.conflict)
  else
    let tasks2 := condUpdateTasks db.tasks task.id "provisional" task.version fun t =>
      { t with
          queue := "incoming"
          version := t.version + 1
          rejection_count := t.rejection_count + 1
          claimed_by := none
          claimed_at := none
          orchestrator_id := none
          lease_expires_at := none
          updated_at := now }
    ({ db with
        tasks := tasks2
        history := db.history ++
          [{ task_id := task.id, event := "rejected", agent := rejected_by, timestamp := now }] },
     Status.ok)

/-- `POST /tasks/:id/reject` end to end. -/
def rejectTask (db : DB) (taskId : String) (body : RejectTaskRequest) (now : Nat) : DB × Status :=
  if (truthyStr body.reason).isNone || (truthyStr body.rejected_by).isNone then
    (db, Status.badRequest)
  else
    match findTask db.tasks taskId with
    | none => (db, Status.notFound)
    | some task =>
      if task.queue ≠ "provisional" then
        (db, Status.conflict)
      else
        rejectWritePhase db task body.rejected_by now

/-! ### PATCH /tasks/:id — generic field update -/

/-- Body of `PATCH /tasks/:id`. Each whitelisted field is `none` when the
key is absent from the JSON body; for a nullable column the inner option is
the value-or-null written. Keys outside the whitelist are skipped by the
handler loop, so they are not represented. `queue` is `Option String`
because the done-guard compares it with the string `'done'`. -/
structure UpdateTaskRequest where
  title : Option (Option String) := none
  queue : Option String := none
  priority : Option String := none
  complexity : Option (Option String) := none
  role : Option (Option String) := none
  ty : Option (Option String) := none
  branch : Option (Option String) := none
  blocked_by : Option (Option String) := none
  claimed_by : Option (Option String) := none
  claimed_at : Option (Option Nat) := none
  commits_count : Option (Option Nat) := none
  turns_used : Option (Option Nat) := none
  attempt_count : Option (Option Nat) := none
  has_plan : Option (Option Bool) := none
  plan_id : Option (Option String) := none
  project_id : Option (Option String) := none
  auto_accept : Option Bool := none
  rejection_count : Option Nat := none
  pr_number : Option (Option Nat) := none
  pr_url : Option (Option String) := none
  checks : Option (Option String) := none
  check_results : Option (Option String) := none
  needs_rebase : Option (Option Bool) := none
  last_rebase_attempt_at : Option (Option Nat) := none
  staging_url : Option (Option String) := none
  submitted_at : Option (Option Nat) := none
  completed_at : Option (Option Nat) := none
  hooks : Option (Option (List Hook)) := none
  flow : Option (Option String) := none
  flow_overrides : Option (Option String) := none
  deriving Repr

/-- `updates.length === 0`: no whitelisted key was present in the body. -/
def UpdateTaskRequest.isEmpty (b : UpdateTaskRequest) : Bool :=
  b.title.isNone && b.queue.isNone && b.priority.isNone && b.complexity.isNone &&
  b.role.isNone && b.ty.isNone && b.branch.isNone && b.blocked_by.isNone &&
  b.claimed_by.isNone && b.claimed_at.isNone && b.commits_count.isNone &&
  b.turns_used.isNone && b.attempt_count.isNone && b.has_plan.isNone &&
  b.plan_id.isNone && b.project_id.isNone && b.auto_accept.isNone &&
  b.rejection_count.isNone && b.pr_number.isNone && b.pr_url.isNone &&
  b.checks.isNone && b.check_results.isNone && b.needs_rebase.isNone &&
  b.last_rebase_attempt_at.isNone && b.staging_url.isNone && b.submitted_at.isNone &&
  b.completed_at.isNone && b.hooks.isNone && b.flow.isNone && b.flow_overrides.isNone

/-- The dynamically built SET clause applied to a row: every field whose key
was present is overwritten, and `updated_at` is set to now. -/
def patchApply (b : UpdateTaskRequest) (now : Nat) (t : Task) : Task :=
  { t with
      title := b.title.getD t.title
      queue := b.queue.getD t.queue
      priority := b.priority.getD t.priority
      complexity := b.complexity.getD t.complexity
      role := b.role.getD t.role
      ty := b.ty.getD t.ty
      branch := b.branch.getD t.branch
      blocked_by := b.blocked_by.getD t.blocked_by
      claimed_by := b.claimed_by.getD t.claimed_by
      claimed_at := b.claimed_at.getD t.claimed_at
      commits_count := b.commits_count.getD t.commits_count
      turns_used := b.turns_used.getD t.turns_used
      attempt_count := b.attempt_count.getD t.attempt_count
      has_plan := b.has_plan.getD t.has_plan
      plan_id := b.plan_id.getD t.plan_id
      project_id := b.project_id.getD t.project_id
      auto_accept := b.auto_accept.getD t.auto_accept
      rejection_count := b.rejection_count.getD t.rejection_count
      pr_number := b.pr_number.getD t.pr_number
      pr_url := b.pr_url.getD t.pr_url
      checks := b.checks.getD t.checks
      check_results := b.check_results.getD t.check_results
      needs_rebase := b.needs_rebase.getD t.needs_rebase
      last_rebase_attempt_at := b.last_rebase_attempt_at.getD t.last_rebase_attempt_at
      staging_url := b.staging_url.getD t.staging_url
      submitted_at := b.submitted_at.getD t.submitted_at
      completed_at := b.completed_at.getD t.completed_at
      hooks := b.hooks.getD t.hooks
      flow := b.flow.getD t.flow
      flow_overrides := b.flow_overrides.getD t.flow_overrides
      updated_at := now }

/-- `PATCH /tasks/:id`: the done-guard, the empty-body check, then an
unconditional `UPDATE ... WHERE id = ?` (404 when it matches no row). -/
def patchTask (db : DB) (taskId : String) (b : UpdateTaskRequest) (now : Nat) : DB × Status :=
  if b.queue == some "done" then
    (db, Status.badRequest)
  else if b.isEmpty then
    (db, Status.badRequest)
  else if (db.tasks.filter fun t => t.id == taskId).length = 0 then
    (db, Status.notFound)
  else
    ({ db with tasks := db.tasks.map fun t => if t.id == taskId then patchApply b now t else t },
     Status.ok)

/-! ### POST /tasks/:id/hooks/:hookName/complete -/

/-- The handler loop over the parsed hooks array: update the status (and
evidence, when given) of the first hook with the given name, reporting
whether one was found. -/
def setHookStatus (hookName status : String) (evidence : Option String) :
    List Hook → List Hook × Bool
  | [] => ([], false)
  | h :: hs =>
    if h.name == hookName then
      ({ h with
          status := status
          evidence := match evidence with | some e => some e | none => h.evidence } :: hs,
       true)
    else
      let rest := setHookStatus hookName status evidence hs
      (h :: rest.1, rest.2)

/-- `POST /tasks/:id/hooks/:hookName/complete`: validate the status, read
the task, update the named hook, and write back `hooks` and `updated_at`
with an `UPDATE ... WHERE id = ?`. The version column is not touched. -/
def hookComplete (db : DB) (taskId hookName : String) (status : String)
    (evidence : Option String) (now : Nat) : DB × Status :=
  if !(status == "passed" || status == "failed") then
    (db, Status.badRequest)
  else
    match findTask db.tasks taskId with
    | none => (db, Status.notFound)
    | some task =>
      let hooks := task.hooks.getD []
      let updated := setHookStatus hookName status evidence hooks
      if !updated.2 then
        (db, Status.notFound)
      else
        ({ db with
            tasks := db.tasks.map fun t =>
              if t.id == taskId then { t with hooks := some updated.1, updated_at := now } else t },
         Status.ok)

/-! ### Lease reconciler — `src/scheduled/lease-monitor.ts` -/

/-- The WHERE clause of the release UPDATE:
`queue = 'claimed' AND lease_expires_at < datetime('now')`. -/
def leaseExpired (now : Nat) (t : Task) : Bool :=
  t.queue == "claimed" &&
    (match t.lease_expires_at with | some e => decide (e < now) | none => false)

/-- One run of `runLeaseMonitor`. Step 1 releases expired claims with a
single bulk UPDATE (queue back to incoming, lease fields cleared,
`updated_at` bumped, version untouched) and then, when any row changed,
runs the history `INSERT ... SELECT` against the POST-update table, whose
WHERE clause is `queue = 'incoming' AND claimed_by IS NOT NULL AND
lease_expires_at IS NULL`. Step 2 marks stale active orchestrators
offline. -/
def runLeaseMonitor (db : DB) (now : Nat) : DB :=
  let changes := (db.tasks.filter (leaseExpired now)).length
  let tasks2 := db.tasks.map fun t =>
    if leaseExpired now t then
      { t with
          queue := "incoming"
          claimed_by := none
          orchestrator_id := none
          lease_expires_at := none
          updated_at := now }
    else t
  let history2 :=
    if changes > 0 then
      db.history ++
        ((tasks2.filter fun t =>
            t.queue == "incoming" && t.claimed_by.isSome && t.lease_expires_at.isNone).map
          fun t =>
            { task_id := t.id, event := "requeued", agent := t.claimed_by,
              details := some "Lease expired", timestamp := now })
    else db.history
  let staleThreshold := now - getConfig.staleOrchestratorTimeoutSeconds
  let orchestrators2 := db.orchestrators.map fun o =>
    if o.status == "active" && decide (o.last_heartbeat < staleThreshold) then
      { o with status := "offline" }
    else o
  { db with tasks := tasks2, history := history2, orchestrators := orchestrators2 }

/-! ### The atomicity contract of the conditional lifecycle writes -/

/-- The contract of a lifecycle write phase performed against a snapshot
`(obsId, obsQueue, obsVersion)`:
* when no row matches the conditional UPDATE predicate, the whole store
  (tasks AND history) is unchanged and the outcome is 409 CONFLICT;
* when some row matches, the outcome is 200;
* rows matching the predicate end with `version = obsVersion + 1`, and rows
  not matching it keep their version and queue untouched (so a row whose
  queue or version differs from the observed one is never transitioned). -/
def UpdateContract (pre post : DB) (st : Status) (obsId obsQueue : String)
    (obsVersion : Nat) : Prop :=
  ((∀ t ∈ pre.tasks, condMatches t obsId obsQueue obsVersion = false) →
      post = pre ∧ st = Status.conflict) ∧
  ((∃ t ∈ pre.tasks, condMatches t obsId obsQueue obsVersion = true) → st = Status.ok) ∧
  (∀ (i : Nat) (t : Task), pre.tasks[i]? = some t →
    (condMatches t obsId obsQueue obsVersion = true →
        ∃ t2, post.tasks[i]? = some t2 ∧ t2.version = obsVersion + 1) ∧
    (condMatches t obsId obsQueue obsVersion = false →
        ∃ t2, post.tasks[i]? = some t2 ∧ t2.version = t.version ∧ t2.queue = t.queue))

/-- No task moves INTO `queue = done` under the given write: a post-state
task whose queue is `done` already had queue `done` in the pre-state. -/
def PreservesNonDone (pre post : List Task) : Prop :=
  ∀ (i : Nat) (t t2 : Task), pre[i]? = some t → post[i]? = some t2 →
    t2.queue = "done" → t.queue = "done"

/-! ### Concrete fixtures used by witnesses and counterexamples -/

/-- A fresh task as created with all defaults: `queue = incoming`, `version = 1`. -/
def exTask : Task := { id := "t1" }

/-- A one-task store holding `exTask`. -/
def exDB : DB := { tasks := [exTask] }

/-- A stale snapshot of `exTask`: its version was bumped since the read. -/
def staleSnap : Task := { id := "t1", version := 2 }

/-- A minimal valid claim body. -/
def exClaimBody : ClaimTaskRequest := { orchestrator_id := some "o1", agent_name := some "a1" }

/-- A task carrying a title, for the PATCH counterexamples. -/
def titledTask : Task := { id := "t1", title := some "old" }

/-- A one-task store holding `titledTask`. -/
def titledDB : DB := { tasks := [titledTask] }

/-- A PATCH body that only changes the title. -/
def patchTitleBody : UpdateTaskRequest := { title := some (some "new") }

/-- A claimed task whose lease expired at time 5. -/
def claimedExpiredTask : Task :=
  { id := "t1", queue := "claimed", claimed_by := some "a1", orchestrator_id := some "o1",
    lease_expires_at := some 5, version := 2 }

/-- A one-task store holding `claimedExpiredTask`, with empty history. -/
def claimedExpiredDB : DB := { tasks := [claimedExpiredTask] }

/-- A claimed task with an active lease (expires at 100). -/
def submitReadyTask : Task :=
  { id := "t1", queue := "claimed", claimed_by := some "a1", orchestrator_id := some "o1",
    lease_expires_at := some 100, version := 2 }

/-- A one-task store holding `submitReadyTask`. -/
def submitReadyDB : DB := { tasks := [submitReadyTask] }

/-- An incoming task in scope `a`. -/
def scopedTaskA : Task := { id := "ta", scope := some "a" }

/-- A one-task store holding `scopedTaskA`. -/
def scopedDB : DB := { tasks := [scopedTaskA] }

/-- A provisional task awaiting review. -/
def provTask : Task := { id := "t1", queue := "provisional", version := 3 }

/-- A one-task store holding `provTask`. -/
def provDB : DB := { tasks := [provTask] }

/-- A PATCH body that tries to set `queue` to `done`. -/
def patchQueueDoneBody : UpdateTaskRequest := { queue := some "done" }

/-- A PATCH body that only sets `completed_at`. -/
def patchCompletedBody : UpdateTaskRequest := { completed_at := some (some 5) }

/-- A claim body asking for a 7200-second lease, above the configured
maximum of 3600. -/
def bigLeaseBody : ClaimTaskRequest :=
  { orchestrator_id := some "o1", agent_name := some "a1", lease_duration_seconds := some 7200 }

/-- A claim body missing its orchestrator id. -/
def noOrchBody : ClaimTaskRequest := { agent_name := some "a1" }

/-- A roles table in which role `r1` claims from `needs_continuation`. -/
def rolesFixture : List Role := [{ name := "r1", claims_from := some "needs_continuation" }]

/-- A claim body with a TWO-role filter and no explicit queue. -/
def multiRoleBody : ClaimTaskRequest :=
  { orchestrator_id := some "o1", agent_name := some "a1", role_filter := some ["r1", "r2"] }

/-- Queue resolution as amended, stated directly from the corrected spec
wording: the caller's (truthy) queue wins; otherwise, when a role filter is
present, the `claims_from` hint of the FIRST role of the filter — whether
or not the filter has further roles — when that role is registered with a
truthy hint; otherwise `incoming`. -/
def resolveClaimQueueAmended (roles : List Role) (body : ClaimTaskRequest) : String :=
  match truthyStr body.queue with
  | some q => q
  | none =>
    match body.role_filter with
    | none => "incoming"
    | some rs =>
      match rs.head? with
      | none => "incoming"
      | some r0 =>
        match roles.find? fun r => r.name == r0 with
        | none => "incoming"
        | some r =>
          match truthyStr r.claims_from with
          | some cf => cf
          | none => "incoming"

/-! ### Helper lemmas -/

theorem mem_insertLe {le : Task → Task → Bool} {a x : Task} {l : List Task} :
    x ∈ insertLe le a l ↔ x = a ∨ x ∈ l := by
  induction l with
  | nil => simp [insertLe]
  | cons b bs ih =>
    simp only [insertLe]
    split
    · simp
    · simp [ih]
      tauto

theorem mem_orderBy {le : Task → Task → Bool} {x : Task} {l : List Task} :
    x ∈ orderBy le l ↔ x ∈ l := by
  induction l with
  | nil => simp [orderBy]
  | cons a as ih =>
    simp [orderBy, mem_insertLe, ih]

theorem condUpdateChanges_eq_zero {tasks : List Task} {id q : String} {v : Nat} :
    condUpdateChanges tasks id q v = 0 ↔ ∀ t ∈ tasks, condMatches t id q v = false := by
  simp only [condUpdateChanges, List.length_eq_zero, List.filter_eq_nil_iff]
  constructor
  · intro h t ht
    simpa using h t ht
  · intro h t ht
    simp [h t ht]

theorem condUpdateTasks_getElem? {tasks : List Task} {id q : String} {v : Nat}
    {f : Task → Task} {i : Nat} :
    (condUpdateTasks tasks id q v f)[i]? =
      tasks[i]?.map (fun t => if condMatches t id q v then f t else t) := by
  simp [condUpdateTasks, List.getElem?_map]

theorem findTask_map_of_id_preserved {l : List Task} {g : Task → Task} {i : String}
    (hg : ∀ t, (g t).id = t.id) :
    findTask (l.map g) i = (findTask l i).map g := by
  induction l with
  | nil => simp [findTask]
  | cons a as ih =>
    simp only [findTask, List.map_cons, List.find?]
    rw [hg a]
    split
    · simp
    · simpa [findTask] using ih

theorem findTask_id {tasks : List Task} {i : String} {t : Task}
    (h : findTask tasks i = some t) : t.id = i := by
  have := List.find?_some h
  simpa using this

theorem eq_map_of_getElem? {l : List Task} {g : Task → Task} {i : Nat} {t t2 : Task}
    (h1 : l[i]? = some t) (h2 : (l.map g)[i]? = some t2) : t2 = g t := by
  rw [List.getElem?_map, h1, Option.map_some'] at h2
  injection h2 with h
  exact h.symm

theorem preservesNonDone_refl {l : List Task} : PreservesNonDone l l := by
  intro i t t2 h1 h2 hdone
  rw [h1] at h2
  injection h2 with h
  exact h ▸ hdone

theorem preservesNonDone_map {l : List Task} {g : Task → Task}
    (h : ∀ t, (g t).queue = "done" → t.queue = "done") :
    PreservesNonDone l (l.map g) := by
  intro i t t2 h1 h2 hdone
  have he := eq_map_of_getElem? h1 h2
  subst he
  exact h t hdone

theorem findTask_condUpdate {tasks : List Task} {id q : String} {v : Nat} {f : Task → Task}
    (hfid : ∀ t, (f t).id = t.id) {i : String} {t : Task}
    (h : findTask tasks i = some t) (hm : condMatches t id q v = true) :
    findTask (condUpdateTasks tasks id q v f) i = some (f t) := by
  simp only [condUpdateTasks]
  rw [findTask_map_of_id_preserved (fun t => by split <;> simp [hfid]), h]
  simp [hm]

theorem forall₂_map_self {r : Nat → Nat → Prop} {f g : Task → Nat} {l : List Task}
    (h : ∀ t ∈ l, r (f t) (g t)) : List.Forall₂ r (l.map f) (l.map g) := by
  induction l with
  | nil => simp
  | cons a as ih =>
    simp only [List.map_cons]
    exact List.Forall₂.cons (h a (List.mem_cons_self a as))
      (ih fun t ht => h t (List.mem_cons_of_mem a ht))

theorem forall₂_refl_le {l : List Nat} : List.Forall₂ (· ≤ ·) l l := by
  induction l with
  | nil => simp
  | cons a as ih => exact List.Forall₂.cons le_rfl ih

theorem condMatches_true_iff {t : Task} {id q : String} {v : Nat} :
    condMatches t id q v = true ↔ t.id = id ∧ t.queue = q ∧ t.version = v := by
  simp [condMatches, and_assoc]

theorem updateContract_mk (pre post : DB) (st : Status) (obsId obsQueue : String)
    (obsVersion : Nat) (f g : Task → Task)
    (hzero : condUpdateChanges pre.tasks obsId obsQueue obsVersion = 0 →
      post = pre ∧ st = Status.conflict)
    (hsucc : condUpdateChanges pre.tasks obsId obsQueue obsVersion ≠ 0 →
      post.tasks = (condUpdateTasks pre.tasks obsId obsQueue obsVersion f).map g ∧
        st = Status.ok)
    (hfv : ∀ t, condMatches t obsId obsQueue obsVersion = true → (f t).version = obsVersion + 1)
    (hgv : ∀ t, (g t).version = t.version)
    (hgq : ∀ t, (g t).queue = t.queue) :
    UpdateContract pre post st obsId obsQueue obsVersion := by
  by_cases hch : condUpdateChanges pre.tasks obsId obsQueue obsVersion = 0
  · obtain ⟨hpost, hst⟩ := hzero hch
    subst hpost
    subst hst
    refine ⟨fun _ => ⟨rfl, rfl⟩, ?_, ?_⟩
    · rintro ⟨t, ht, hm⟩
      rw [condUpdateChanges_eq_zero.mp hch t ht] at hm
      cases hm
    · intro i t hit
      have hall := condUpdateChanges_eq_zero.mp hch
      refine ⟨?_, ?_⟩
      · intro hm
        rw [hall t (List.getElem?_mem hit)] at hm
        cases hm
      · intro _
        exact ⟨t, hit, rfl, rfl⟩
  · obtain ⟨hpost, hst⟩ := hsucc hch
    refine ⟨?_, fun _ => hst, ?_⟩
    · intro hall
      exact absurd (condUpdateChanges_eq_zero.mpr hall) hch
    · intro i t hit
      have hp : post.tasks[i]? =
          some (g (if condMatches t obsId obsQueue obsVersion then f t else t)) := by
        rw [hpost, List.getElem?_map, condUpdateTasks_getElem?, hit]
        rfl
      constructor
      · intro hm
        rw [hm] at hp
        simp only [if_true] at hp
        exact ⟨_, hp, by rw [hgv]; exact hfv t hm⟩
      · intro hm
        rw [hm] at hp
        simp only [Bool.false_eq_true, if_false] at hp
        exact ⟨_, hp, hgv t, hgq t⟩

theorem claimWritePhase_contract (db : DB) (task : Task) (cq : String)
    (body : ClaimTaskRequest) (now : Nat) :
    UpdateContract db (claimWritePhase db task cq body now).1
      (claimWritePhase db task cq body now).2 task.id cq task.version := by
  apply updateContract_mk db _ _ task.id cq task.version
    (fun t =>
      { t with
          queue := if cq == "provisional" then "provisional" else "claimed"
          version := task.version + 1
          claimed_by := body.agent_name
          claimed_at := some now
          lease_expires_at := some (now + resolveLeaseDuration body)
          orchestrator_id := body.orchestrator_id
          updated_at := now })
    id
  · intro hch
    simp only [claimWritePhase]
    rw [if_pos hch]
    exact ⟨rfl, rfl⟩
  · intro hch
    simp only [claimWritePhase]
    rw [if_neg hch, List.map_id]
    exact ⟨rfl, rfl⟩
  · intro t _
    rfl
  · intro t
    rfl
  · intro t
    rfl

theorem submitWritePhase_contract (db : DB) (task : Task) (commits turns : Nat)
    (cr en : Option String) (now : Nat) :
    UpdateContract db (submitWritePhase db task commits turns cr en now).1
      (submitWritePhase db task commits turns cr en now).2 task.id "claimed" task.version := by
  apply updateContract_mk db _ _ task.id "claimed" task.version
    (fun t =>
      { t with
          queue := if burnoutDetected commits turns then "needs_continuation" else "provisional"
          version := t.version + 1
          commits_count := some commits
          turns_used := some turns
          check_results := truthyStr cr
          execution_notes := truthyStr en
          submitted_at := some now
          updated_at := now })
    id
  · intro hch
    simp only [submitWritePhase]
    rw [if_pos hch]
    exact ⟨rfl, rfl⟩
  · intro hch
    simp only [submitWritePhase]
    rw [if_neg hch, List.map_id]
    exact ⟨rfl, rfl⟩
  · intro t hm
    have := (condMatches_true_iff.mp hm).2.2
    simp [this]
  · intro t
    rfl
  · intro t
    rfl

theorem acceptWritePhase_contract (db : DB) (task : Task) (body : AcceptTaskRequest)
    (now : Nat) :
    UpdateContract db (acceptWritePhase db task body now).1
      (acceptWritePhase db task body now).2 task.id "provisional" task.version := by
  apply updateContract_mk db _ _ task.id "provisional" task.version
    (fun t =>
      { t with
          queue := "done"
          version := t.version + 1
          completed_at := some ((truthyNat body.completed_at).getD now)
          updated_at := now })
    (fun t =>
      if t.blocked_by == some task.id then { t with blocked_by := none, updated_at := now } else t)
  · intro hch
    simp only [acceptWritePhase]
    rw [if_pos hch]
    exact ⟨rfl, rfl⟩
  · intro hch
    simp only [acceptWritePhase]
    rw [if_neg hch]
    exact ⟨rfl, rfl⟩
  · intro t hm
    have := (condMatches_true_iff.mp hm).2.2
    simp [this]
  · intro t
    split <;> rfl
  · intro t
    split <;> rfl

theorem rejectWritePhase_contract (db : DB) (task : Task) (rb : Option String) (now : Nat) :
    UpdateContract db (rejectWritePhase db task rb now).1
      (rejectWritePhase db task rb now).2 task.id "provisional" task.version := by
  apply updateContract_mk db _ _ task.id "provisional" task.version
    (fun t =>
      { t with
          queue := "incoming"
          version := t.version + 1
          rejection_count := t.rejection_count + 1
          claimed_by := none
          claimed_at := none
          orchestrator_id := none
          lease_expires_at := none
          updated_at := now })
    id
  · intro hch
    simp only [rejectWritePhase]
    rw [if_pos hch]
    exact ⟨rfl, rfl⟩
  · intro hch
    simp only [rejectWritePhase]
    rw [if_neg hch, List.map_id]
    exact ⟨rfl, rfl⟩
  · intro t hm
    have := (condMatches_true_iff.mp hm).2.2
    simp [this]
  · intro t
    rfl
  · intro t
    rfl

/-! ### Claim theorems -/

/-- C1: For every lifecycle operation (claim, submit, accept, reject), the
state change is applied by a single conditional UPDATE whose predicate
includes both the task's observed queue and its observed version; on
success the matched task's version equals the observed version plus one;
and when the conditional UPDATE matches zero rows the operation returns
CONFLICT (409), appends no history row, and leaves every task field
unchanged (the post store equals the pre store). -/
theorem lifecycle_atomicity :
    (∀ (db : DB) (task : Task) (cq : String) (body : ClaimTaskRequest) (now : Nat),
        UpdateContract db (claimWritePhase db task cq body now).1
          (claimWritePhase db task cq body now).2 task.id cq task.version) ∧
    (∀ (db : DB) (task : Task) (commits turns : Nat) (cr en : Option String) (now : Nat),
        UpdateContract db (submitWritePhase db task commits turns cr en now).1
          (submitWritePhase db task commits turns cr en now).2 task.id "claimed" task.version) ∧
    (∀ (db : DB) (task : Task) (body : AcceptTaskRequest) (now : Nat),
        UpdateContract db (acceptWritePhase db task body now).1
          (acceptWritePhase db task body now).2 task.id "provisional" task.version) ∧
    (∀ (db : DB) (task : Task) (rb : Option String) (now : Nat),
        UpdateContract db (rejectWritePhase db task rb now).1
          (rejectWritePhase db task rb now).2 task.id "provisional" task.version) :=
  ⟨claimWritePhase_contract, submitWritePhase_contract, acceptWritePhase_contract,
    rejectWritePhase_contract⟩

/-- Witness for C1: at a concrete store, a claim write against a stale
snapshot conflicts and changes nothing, and a claim write against a fresh
snapshot bumps the matched task's version to the observed version plus
one. -/
theorem lifecycle_atomicity_witness :
    (claimWritePhase exDB staleSnap "incoming" exClaimBody 0).1 = exDB ∧
    (claimWritePhase exDB staleSnap "incoming" exClaimBody 0).2 = Status.conflict ∧
    ∃ t2, (claimWritePhase exDB exTask "incoming" exClaimBody 0).1.tasks[0]? = some t2 ∧
      t2.version = exTask.version + 1 := by
  have h1 := (lifecycle_atomicity.1 exDB staleSnap "incoming" exClaimBody 0).1 (by decide)
  have h2 := ((lifecycle_atomicity.1 exDB exTask "incoming" exClaimBody 0).2.2 0 exTask
    (by rfl)).1 (by decide)
  exact ⟨h1.1, h1.2, h2⟩

/-- C10: `PATCH /tasks/:id` never changes a task's `id`, `scope`, `version`,
`orchestrator_id` or `lease_expires_at`, whatever keys the request body
contains: those columns are outside the handler's field whitelist. -/
theorem patch_frame_preserves_protected_fields :
    ∀ (db : DB) (taskId : String) (b : UpdateTaskRequest) (now : Nat),
      ((patchTask db taskId b now).1.tasks.map fun t =>
        (t.id, t.scope, t.version, t.orchestrator_id, t.lease_expires_at)) =
      (db.tasks.map fun t =>
        (t.id, t.scope, t.version, t.orchestrator_id, t.lease_expires_at)) := by
  intro db taskId b now
  simp only [patchTask]
  split
  · rfl
  · split
    · rfl
    · split
      · rfl
      · simp only [List.map_map]
        refine List.map_congr_left fun t _ => ?_
        simp only [Function.comp_apply]
        split
        · rfl
        · rfl

theorem map_proj_eq_of_preserves {α : Type} {p : Task → α} {l : List Task} {g : Task → Task}
    (h : ∀ t, p (g t) = p t) :
    (l.map g).map p = l.map p := by
  rw [List.map_map]
  exact List.map_congr_left fun a _ => h a

theorem map_version_eq_of_preserves {l : List Task} {g : Task → Task}
    (h : ∀ t, (g t).version = t.version) :
    (l.map g).map Task.version = l.map Task.version :=
  map_proj_eq_of_preserves h

theorem forall₂_le_map_of {l : List Task} {g : Task → Task}
    (h : ∀ t ∈ l, t.version ≤ (g t).version) :
    List.Forall₂ (· ≤ ·) (l.map Task.version) ((l.map g).map Task.version) := by
  rw [List.map_map]
  exact forall₂_map_self h

/-- Counterexample to C6 as stated: a PATCH that changes the `title` field
commits a write in which a field changed but the version did not strictly
increase (it is unchanged). -/
theorem patch_changes_fields_without_version_bump_cex :
    ((patchTask titledDB "t1" patchTitleBody 7).1.tasks.map fun t => (t.title, t.version)) =
      [(some "new", 1)] ∧
    (titledDB.tasks.map fun t => (t.title, t.version)) = [(some "old", 1)] ∧
    (patchTask titledDB "t1" patchTitleBody 7).1.tasks ≠ titledDB.tasks := by
  exact ⟨rfl, rfl, by decide⟩

/-- C6 amended: across every write of the engine the version never
decreases; the four lifecycle conditional writes bump the matched row's
version, but the PATCH generic field update, the hook-completion endpoint
and the lease reconciler modify task fields while leaving every version
exactly unchanged, so strict inequality does not hold for those writes. -/
theorem version_monotonic_amended :
    (∀ (db : DB) (task : Task) (cq : String) (body : ClaimTaskRequest) (now : Nat),
      List.Forall₂ (· ≤ ·) (db.tasks.map Task.version)
        ((claimWritePhase db task cq body now).1.tasks.map Task.version)) ∧
    (∀ (db : DB) (task : Task) (commits turns : Nat) (cr en : Option String) (now : Nat),
      List.Forall₂ (· ≤ ·) (db.tasks.map Task.version)
        ((submitWritePhase db task commits turns cr en now).1.tasks.map Task.version)) ∧
    (∀ (db : DB) (task : Task) (body : AcceptTaskRequest) (now : Nat),
      List.Forall₂ (· ≤ ·) (db.tasks.map Task.version)
        ((acceptWritePhase db task body now).1.tasks.map Task.version)) ∧
    (∀ (db : DB) (task : Task) (rb : Option String) (now : Nat),
      List.Forall₂ (· ≤ ·) (db.tasks.map Task.version)
        ((rejectWritePhase db task rb now).1.tasks.map Task.version)) ∧
    (∀ (db : DB) (taskId : String) (b : UpdateTaskRequest) (now : Nat),
      (patchTask db taskId b now).1.tasks.map Task.version = db.tasks.map Task.version) ∧
    (∀ (db : DB) (taskId hookName status : String) (ev : Option String) (now : Nat),
      (hookComplete db taskId hookName status ev now).1.tasks.map Task.version =
        db.tasks.map Task.version) ∧
    (∀ (db : DB) (now : Nat),
      (runLeaseMonitor db now).tasks.map Task.version = db.tasks.map Task.version) := by
  refine ⟨?_, ?_, ?_, ?_, ?_, ?_, ?_⟩
  · intro db task cq body now
    simp only [claimWritePhase]
    split
    · exact forall₂_refl_le
    · simp only [condUpdateTasks]
      refine forall₂_le_map_of fun t _ => ?_
      split
      · rename_i hm
        have := (condMatches_true_iff.mp hm).2.2
        simp [this]
      · exact le_rfl
  · intro db task commits turns cr en now
    simp only [submitWritePhase]
    split
    · exact forall₂_refl_le
    · simp only [condUpdateTasks]
      refine forall₂_le_map_of fun t _ => ?_
      split
      · exact Nat.le_succ _
      · exact le_rfl
  · intro db task body now
    simp only [acceptWritePhase]
    split
    · exact forall₂_refl_le
    · rw [map_version_eq_of_preserves (fun t => by split <;> rfl)]
      simp only [condUpdateTasks]
      refine forall₂_le_map_of fun t _ => ?_
      split
      · exact Nat.le_succ _
      · exact le_rfl
  · intro db task rb now
    simp only [rejectWritePhase]
    split
    · exact forall₂_refl_le
    · simp only [condUpdateTasks]
      refine forall₂_le_map_of fun t _ => ?_
      split
      · exact Nat.le_succ _
      · exact le_rfl
  · intro db taskId b now
    simp only [patchTask]
    split
    · rfl
    · split
      · rfl
      · split
        · rfl
        · exact map_version_eq_of_preserves fun t => by split <;> rfl
  · intro db taskId hookName status ev now
    simp only [hookComplete]
    split
    · rfl
    · split
      · rfl
      · split
        · rfl
        · exact map_version_eq_of_preserves fun t => by split <;> rfl
  · intro db now
    simp only [runLeaseMonitor]
    exact map_version_eq_of_preserves fun t => by split <;> rfl

/-- C4, evaluated at the failing input: one reconciler run at time 10 over
a store holding a single claimed task whose lease expired at time 5 does
set `queue = incoming`, clear `claimed_by`, `orchestrator_id` and
`lease_expires_at`, and bump `updated_at` — but it appends NO history row
at all: the `INSERT ... SELECT` that should record the `requeued` event
runs after the release UPDATE and filters on `claimed_by IS NOT NULL AND
lease_expires_at IS NULL`, which no released row can satisfy because the
UPDATE just set `claimed_by` to NULL. -/
theorem lease_monitor_releases_but_appends_no_history :
    ((runLeaseMonitor claimedExpiredDB 10).tasks.map fun t =>
      (t.queue, t.claimed_by, t.orchestrator_id, t.lease_expires_at, t.updated_at, t.version)) =
      [("incoming", none, none, none, 10, 2)] ∧
    (runLeaseMonitor claimedExpiredDB 10).history = [] :=
  ⟨rfl, rfl⟩

/-- C5: For every successful submit on a task in `claimed` with an active
lease, if `commits_count = 0` and `turns_used ≥ 80`, or `turns_used ≥ 100`,
the post-state queue is `needs_continuation` and a `burnout_detected`
history row is appended after the `submitted` row; otherwise the
post-state queue is `provisional` and only `submitted` is appended. -/
theorem burnout_routing_on_submit :
    ∀ (db : DB) (taskId : String) (commits turns : Nat) (cr en : Option String) (now : Nat)
      (task : Task) (e : Nat),
      findTask db.tasks taskId = some task →
      task.queue = "claimed" →
      task.lease_expires_at = some e →
      ¬ e < now →
      (submitTask db taskId
        { commits_count := some commits, turns_used := some turns,
          check_results := cr, execution_notes := en } now).2 = Status.ok ∧
      (∃ t2, findTask (submitTask db taskId
          { commits_count := some commits, turns_used := some turns,
            check_results := cr, execution_notes := en } now).1.tasks taskId = some t2 ∧
        t2.queue =
          (if burnoutDetected commits turns then "needs_continuation" else "provisional") ∧
        t2.version = task.version + 1) ∧
      (submitTask db taskId
        { commits_count := some commits, turns_used := some turns,
          check_results := cr, execution_notes := en } now).1.history.map HistoryEntry.event =
        db.history.map HistoryEntry.event ++
          (if burnoutDetected commits turns then ["submitted", "burnout_detected"]
           else ["submitted"]) := by
  intro db taskId commits turns cr en now task e hf hq hl hnl
  have hid : task.id = taskId := findTask_id hf
  have hmem : task ∈ db.tasks := List.mem_of_find?_eq_some hf
  have hm : condMatches task task.id "claimed" task.version = true := by
    simp [condMatches, hq]
  have hch : condUpdateChanges db.tasks task.id "claimed" task.version ≠ 0 := by
    rw [Ne, condUpdateChanges_eq_zero]
    intro hall
    rw [hall task hmem] at hm
    cases hm
  have hsub : submitTask db taskId
      { commits_count := some commits, turns_used := some turns,
        check_results := cr, execution_notes := en } now =
      submitWritePhase db task commits turns cr en now := by
    simp only [submitTask, hf, hq]
    rw [hl]
    simp [hnl]
  rw [hsub]
  simp only [submitWritePhase]
  rw [if_neg hch]
  refine ⟨rfl, ?_, ?_⟩
  · have h2 := findTask_condUpdate
      (f := fun t =>
        { t with
            queue := if burnoutDetected commits turns then "needs_continuation" else "provisional"
            version := t.version + 1
            commits_count := some commits
            turns_used := some turns
            check_results := truthyStr cr
            execution_notes := truthyStr en
            submitted_at := some now
            updated_at := now })
      (fun t => rfl) hf hm
    exact ⟨_, h2, rfl, rfl⟩
  · by_cases hb : burnoutDetected commits turns
    · simp [hb]
    · simp [hb]

/-- Witness for C5: a submit with zero commits and 85 turns on a claimed
task with an active lease routes to `needs_continuation` and appends
`submitted` then `burnout_detected`. -/
theorem burnout_routing_on_submit_witness :
    (submitTask submitReadyDB "t1"
      { commits_count := some 0, turns_used := some 85,
        check_results := none, execution_notes := none } 50).2 = Status.ok ∧
    (∃ t2, findTask (submitTask submitReadyDB "t1"
        { commits_count := some 0, turns_used := some 85,
          check_results := none, execution_notes := none } 50).1.tasks "t1" = some t2 ∧
      t2.queue = (if burnoutDetected 0 85 then "needs_continuation" else "provisional") ∧
      t2.version = submitReadyTask.version + 1) ∧
    (submitTask submitReadyDB "t1"
      { commits_count := some 0, turns_used := some 85,
        check_results := none, execution_notes := none } 50).1.history.map HistoryEntry.event =
      submitReadyDB.history.map HistoryEntry.event ++
        (if burnoutDetected 0 85 then ["submitted", "burnout_detected"] else ["submitted"]) :=
  burnout_routing_on_submit submitReadyDB "t1" 0 85 none none 50 submitReadyTask 100
    rfl rfl rfl (by decide)

theorem listPred_scope {q : ListQuery} {t : Task} {s : String}
    (h : listPred q t = true) (hs : q.scope = some s) : t.scope = some s := by
  simp only [listPred, hs, Bool.and_eq_true] at h
  simpa using h.2

theorem claimEligible_scope {t : Task} {cq : String} {rf tf : Option (List String)} {s : String}
    (h : claimEligible t cq rf tf (some s) = true) : t.scope = some s := by
  simp only [claimEligible, Bool.and_eq_true] at h
  simpa using h.2

/-- Counterexample to C2 as stated: the scheduler poll endpoint takes no
scope parameter at all, so its queue counts range over every scope. With a
single incoming task in scope `a`, the poll that a caller working in scope
`b` issues still counts one incoming task, although no task of scope `b`
exists. -/
theorem poll_counts_ignore_scope_cex :
    (schedulerPoll scopedDB none).incoming_count = 1 ∧
    ∀ t ∈ scopedDB.tasks, t.scope ≠ some "b" :=
  ⟨rfl, by decide⟩

/-- C2 amended: listing with scope `s` returns only scope-`s` tasks; the
claim selector with scope `s` only picks scope-`s` tasks and the claim
write never alters any task's scope; but the scheduler poll has no scope
input and is invariant under arbitrarily rescoping every task, so its
counts and provisional projection are global across scopes. -/
theorem scope_partition_amended :
    (∀ (tasks : List Task) (q : ListQuery) (s : String),
      q.scope = some s → ∀ t ∈ listTasks tasks q, t.scope = some s) ∧
    (∀ (tasks : List Task) (cq : String) (rf tf : Option (List String)) (s : String) (t : Task),
      selectClaimTask tasks cq rf tf (some s) = some t → t.scope = some s) ∧
    (∀ (db : DB) (task : Task) (cq : String) (body : ClaimTaskRequest) (now : Nat),
      (claimWritePhase db task cq body now).1.tasks.map Task.scope = db.tasks.map Task.scope) ∧
    (∀ (db : DB) (oid : Option String) (f : Task → Option String),
      schedulerPoll { db with tasks := db.tasks.map fun t => { t with scope := f t } } oid =
        schedulerPoll db oid) := by
  refine ⟨?_, ?_, ?_, ?_⟩
  · intro tasks q s hs t ht
    simp only [listTasks] at ht
    have h2 := List.mem_of_mem_drop (List.mem_of_mem_take ht)
    rw [mem_orderBy] at h2
    exact listPred_scope (List.mem_filter.mp h2).2 hs
  · intro tasks cq rf tf s t h
    have hmem : t ∈ orderBy claimLe
        (tasks.filter fun t => claimEligible t cq rf tf (some s)) := by
      exact List.mem_of_mem_head? (by simp [selectClaimTask] at h; simp [h])
    rw [mem_orderBy] at hmem
    exact claimEligible_scope (List.mem_filter.mp hmem).2
  · intro db task cq body now
    simp only [claimWritePhase]
    split
    · rfl
    · simp only [condUpdateTasks]
      exact map_proj_eq_of_preserves fun t => by split <;> rfl
  · intro db oid f
    have hfl : ∀ (qn : String),
        ((db.tasks.map fun t => { t with scope := f t }).filter fun t => t.queue == qn) =
          (db.tasks.filter fun t => t.queue == qn).map fun t => { t with scope := f t } := by
      intro qn
      rw [List.filter_map]
      exact congrArg _ (List.filter_congr fun t _ => rfl)
    simp only [schedulerPoll, hfl, List.length_map, List.map_map]
    rfl

/-- Witness for C2 amended: at a concrete store, both the list call and the
claim selector scoped to `a` return the scope-`a` task. -/
theorem scope_partition_amended_witness :
    scopedTaskA.scope = some "a" ∧ scopedTaskA.scope = some "a" :=
  ⟨scope_partition_amended.1 scopedDB.tasks { scope := some "a" } "a" rfl scopedTaskA (by decide),
   scope_partition_amended.2.1 scopedDB.tasks "incoming" none none "a" scopedTaskA (by decide)⟩

/-- Counterexample to C3 as stated: a PATCH that only sets `completed_at`
succeeds on an incoming task, leaving a task with non-null `completed_at`
and `queue ≠ done`, so `completed_at` is not non-null exactly when
`queue = done`. -/
theorem patch_completed_at_on_non_done_cex :
    ((patchTask exDB "t1" patchCompletedBody 7).1.tasks.map fun t => (t.queue, t.completed_at)) =
      [("incoming", some 5)] ∧
    (patchTask exDB "t1" patchCompletedBody 7).2 = Status.ok :=
  ⟨rfl, rfl⟩

/-- C3 amended: a PATCH with `queue = done` is rejected with 400 and
mutates nothing; `accept` sets the matched task to `queue = done` with a
non-null `completed_at`; and no other write of the engine (claim, submit,
reject, PATCH, hook completion, lease reconciler) ever moves a task into
`done` — but the biconditional "completed_at non-null exactly when queue
= done" is not an invariant, since a PATCH may set `completed_at` on a
non-done task. -/
theorem done_only_via_accept_amended :
    (∀ (db : DB) (taskId : String) (b : UpdateTaskRequest) (now : Nat),
      b.queue = some "done" → patchTask db taskId b now = (db, Status.badRequest)) ∧
    (∀ (db : DB) (task : Task) (body : AcceptTaskRequest) (now : Nat) (i : Nat) (t : Task),
      db.tasks[i]? = some t → condMatches t task.id "provisional" task.version = true →
      ∃ t2, (acceptWritePhase db task body now).1.tasks[i]? = some t2 ∧
        t2.queue = "done" ∧ t2.completed_at.isSome = true) ∧
    (∀ (db : DB) (task : Task) (cq : String) (body : ClaimTaskRequest) (now : Nat),
      PreservesNonDone db.tasks (claimWritePhase db task cq body now).1.tasks) ∧
    (∀ (db : DB) (task : Task) (commits turns : Nat) (cr en : Option String) (now : Nat),
      PreservesNonDone db.tasks (submitWritePhase db task commits turns cr en now).1.tasks) ∧
    (∀ (db : DB) (task : Task) (rb : Option String) (now : Nat),
      PreservesNonDone db.tasks (rejectWritePhase db task rb now).1.tasks) ∧
    (∀ (db : DB) (taskId : String) (b : UpdateTaskRequest) (now : Nat),
      PreservesNonDone db.tasks (patchTask db taskId b now).1.tasks) ∧
    (∀ (db : DB) (taskId hookName status : String) (ev : Option String) (now : Nat),
      PreservesNonDone db.tasks (hookComplete db taskId hookName status ev now).1.tasks) ∧
    (∀ (db : DB) (now : Nat),
      PreservesNonDone db.tasks (runLeaseMonitor db now).tasks) := by
  refine ⟨?_, ?_, ?_, ?_, ?_, ?_, ?_, ?_⟩
  · intro db taskId b now h
    simp [patchTask, h]
  · intro db task body now i t h1 hm
    have hch : condUpdateChanges db.tasks task.id "provisional" task.version ≠ 0 := by
      rw [Ne, condUpdateChanges_eq_zero]
      intro hall
      rw [hall t (List.getElem?_mem h1)] at hm
      cases hm
    simp only [acceptWritePhase]
    rw [if_neg hch]
    have hA : (condUpdateTasks db.tasks task.id "provisional" task.version fun tt =>
        { tt with
            queue := "done"
            version := tt.version + 1
            completed_at := some ((truthyNat body.completed_at).getD now)
            updated_at := now })[i]? =
        some { t with
            queue := "done"
            version := t.version + 1
            completed_at := some ((truthyNat body.completed_at).getD now)
            updated_at := now } := by
      rw [condUpdateTasks_getElem?, h1, Option.map_some']
      simp [hm]
    have hB := List.getElem?_map
      (fun tt =>
        if tt.blocked_by == some task.id then { tt with blocked_by := none, updated_at := now }
        else tt)
      (condUpdateTasks db.tasks task.id "provisional" task.version fun tt =>
        { tt with
            queue := "done"
            version := tt.version + 1
            completed_at := some ((truthyNat body.completed_at).getD now)
            updated_at := now })
      i
    rw [hA, Option.map_some'] at hB
    exact ⟨_, hB, by split <;> rfl, by split <;> rfl⟩
  · intro db task cq body now
    simp only [claimWritePhase]
    split
    · exact preservesNonDone_refl
    · simp only [condUpdateTasks]
      refine preservesNonDone_map fun t => ?_
      split
      · intro hdone
        exfalso
        revert hdone
        split <;> simp
      · exact id
  · intro db task commits turns cr en now
    simp only [submitWritePhase]
    split
    · exact preservesNonDone_refl
    · simp only [condUpdateTasks]
      refine preservesNonDone_map fun t => ?_
      split
      · intro hdone
        exfalso
        revert hdone
        split <;> simp
      · exact id
  · intro db task rb now
    simp only [rejectWritePhase]
    split
    · exact preservesNonDone_refl
    · simp only [condUpdateTasks]
      refine preservesNonDone_map fun t => ?_
      split
      · intro hdone
        simp at hdone
      · exact id
  · intro db taskId b now
    simp only [patchTask]
    split
    · exact preservesNonDone_refl
    · rename_i hq
      split
      · exact preservesNonDone_refl
      · split
        · exact preservesNonDone_refl
        · refine preservesNonDone_map fun t => ?_
          split
          · intro hdone
            simp only [patchApply] at hdone
            cases hb : b.queue with
            | none => rw [hb] at hdone; exact hdone
            | some qv =>
              rw [hb] at hdone
              simp only [Option.getD_some] at hdone
              subst hdone
              exact absurd hb (by simpa using hq)
          · exact id
  · intro db taskId hookName status ev now
    simp only [hookComplete]
    split
    · exact preservesNonDone_refl
    · split
      · exact preservesNonDone_refl
      · split
        · exact preservesNonDone_refl
        · refine preservesNonDone_map fun t => ?_
          split <;> exact id
  · intro db now
    simp only [runLeaseMonitor]
    refine preservesNonDone_map fun t => ?_
    split
    · intro hdone
      simp at hdone
    · exact id

/-- Witness for C3 amended: at a concrete store, the PATCH that tries to
set `queue = done` is rejected with 400 and changes nothing, and accepting
a provisional task makes it `done` with `completed_at` set. -/
theorem done_only_via_accept_amended_witness :
    patchTask exDB "t1" patchQueueDoneBody 7 = (exDB, Status.badRequest) ∧
    ∃ t2, (acceptWritePhase provDB provTask {} 9).1.tasks[0]? = some t2 ∧
      t2.queue = "done" ∧ t2.completed_at.isSome = true :=
  ⟨done_only_via_accept_amended.1 exDB "t1" patchQueueDoneBody 7 rfl,
   done_only_via_accept_amended.2.1 provDB provTask {} 9 0 provTask rfl (by decide)⟩

/-- Counterexample to C7 as stated: the claim handler never clamps the
caller-supplied lease duration, so a claim requesting 7200 seconds is
granted a lease of `now + 7200` although the configured maximum is
3600 seconds. -/
theorem lease_duration_unbounded_cex :
    (claimTask exDB bigLeaseBody 0).1.tasks.map Task.lease_expires_at = [some 7200] ∧
    (claimTask exDB bigLeaseBody 0).2 = Status.ok ∧
    DEFAULT_CONFIG.maxLeaseDurationSeconds < 7200 := by
  refine ⟨by decide, by decide, by decide⟩

/-- C7 amended: for every successful claim the granted lease expiry equals
`now + d`, where `d` is the caller-supplied `lease_duration_seconds` when
present and non-zero and the default 300 otherwise; no maximum is applied,
so `d` may exceed the configured 3600. -/
theorem lease_expiry_amended :
    (∀ (db : DB) (task : Task) (cq : String) (body : ClaimTaskRequest) (now : Nat)
        (i : Nat) (t : Task),
      db.tasks[i]? = some t → condMatches t task.id cq task.version = true →
      ∃ t2, (claimWritePhase db task cq body now).1.tasks[i]? = some t2 ∧
        t2.lease_expires_at = some (now + resolveLeaseDuration body)) ∧
    (∀ body : ClaimTaskRequest, body.lease_duration_seconds = none →
      resolveLeaseDuration body = DEFAULT_CONFIG.defaultLeaseDurationSeconds) ∧
    (∀ (body : ClaimTaskRequest) (d : Nat), body.lease_duration_seconds = some d → d ≠ 0 →
      resolveLeaseDuration body = d) := by
  refine ⟨?_, ?_, ?_⟩
  · intro db task cq body now i t h1 hm
    have hch : condUpdateChanges db.tasks task.id cq task.version ≠ 0 := by
      rw [Ne, condUpdateChanges_eq_zero]
      intro hall
      rw [hall t (List.getElem?_mem h1)] at hm
      cases hm
    simp only [claimWritePhase]
    rw [if_neg hch]
    have hA : (condUpdateTasks db.tasks task.id cq task.version fun tt =>
        { tt with
            queue := if cq == "provisional" then "provisional" else "claimed"
            version := task.version + 1
            claimed_by := body.agent_name
            claimed_at := some now
            lease_expires_at := some (now + resolveLeaseDuration body)
            orchestrator_id := body.orchestrator_id
            updated_at := now })[i]? =
        some { t with
            queue := if cq == "provisional" then "provisional" else "claimed"
            version := task.version + 1
            claimed_by := body.agent_name
            claimed_at := some now
            lease_expires_at := some (now + resolveLeaseDuration body)
            orchestrator_id := body.orchestrator_id
            updated_at := now } := by
      rw [condUpdateTasks_getElem?, h1, Option.map_some']
      simp [hm]
    exact ⟨_, hA, rfl⟩
  · intro body h
    simp [resolveLeaseDuration, truthyNat, h, getConfig]
  · intro body d h hd
    simp [resolveLeaseDuration, truthyNat, h, hd]

/-- Witness for C7 amended: with a concrete store and the 7200-second
request, the granted expiry is `0 + 7200`, and the two resolution cases
evaluate on concrete bodies. -/
theorem lease_expiry_amended_witness :
    (∃ t2, (claimWritePhase exDB exTask "incoming" bigLeaseBody 0).1.tasks[0]? = some t2 ∧
      t2.lease_expires_at = some (0 + resolveLeaseDuration bigLeaseBody)) ∧
    resolveLeaseDuration exClaimBody = DEFAULT_CONFIG.defaultLeaseDurationSeconds ∧
    resolveLeaseDuration bigLeaseBody = 7200 :=
  ⟨lease_expiry_amended.1 exDB exTask "incoming" bigLeaseBody 0 0 exTask rfl (by decide),
   lease_expiry_amended.2.1 exClaimBody rfl,
   lease_expiry_amended.2.2 bigLeaseBody 7200 rfl (by decide)⟩

/-- Counterexample to C8 as stated: a claim request carrying no scope at
all (and naming an orchestrator whose registration is never consulted) is
not rejected with 400 — it selects and claims a task, here one living in
scope `a`. -/
theorem claim_without_scope_not_rejected_cex :
    (claimTask scopedDB exClaimBody 0).2 = Status.ok ∧
    (claimTask scopedDB exClaimBody 0).1.tasks.map Task.queue = ["claimed"] ∧
    exClaimBody.scope = none := by
  refine ⟨by decide, by decide, rfl⟩

/-- C8 amended: claim validation requires only a truthy `orchestrator_id`
and `agent_name` (either missing or empty yields 400 before any selection
or mutation); `scope` is optional, and when it is absent the selection
predicate ignores task scopes entirely. -/
theorem claim_scope_optional_amended :
    (∀ (db : DB) (body : ClaimTaskRequest) (now : Nat),
      truthyStr body.orchestrator_id = none ∨ truthyStr body.agent_name = none →
      claimTask db body now = (db, Status.badRequest)) ∧
    (∀ (t : Task) (cq : String) (rf tf : Option (List String)) (s : Option String),
      claimEligible { t with scope := s } cq rf tf none = claimEligible t cq rf tf none) := by
  refine ⟨?_, ?_⟩
  · intro db body now h
    rcases h with h | h <;> simp [claimTask, h]
  · intro t cq rf tf s
    rfl

/-- Witness for C8 amended: a claim body lacking `orchestrator_id` is
rejected with 400 and the store is unchanged. -/
theorem claim_scope_optional_amended_witness :
    claimTask exDB noOrchBody 0 = (exDB, Status.badRequest) :=
  claim_scope_optional_amended.1 exDB noOrchBody 0 (Or.inl rfl)

/-- Counterexample to C9 as stated: with role `r1` registered with a
`claims_from` hint and a TWO-role filter without an explicit queue, the
handler resolves the claim queue to the first role's hint, not to
`incoming` as the claim requires for multi-role filters. -/
theorem multi_role_queue_resolution_cex :
    resolveClaimQueue rolesFixture multiRoleBody = "needs_continuation" ∧
    multiRoleBody.queue = none ∧
    multiRoleBody.role_filter.map List.length = some 2 ∧
    resolveClaimQueue rolesFixture multiRoleBody ≠ "incoming" := by
  refine ⟨by decide, rfl, rfl, by decide⟩

/-- C9 amended: the claim queue is the caller-supplied (truthy) queue when
present; otherwise, when a role filter is present, the `claims_from` hint
of the FIRST role of the filter (registered with a truthy hint) — with no
requirement that the filter contain exactly one role; otherwise
`incoming`. -/
theorem queue_resolution_amended :
    ∀ (roles : List Role) (body : ClaimTaskRequest),
      resolveClaimQueue roles body = resolveClaimQueueAmended roles body := by
  intro roles body
  unfold resolveClaimQueue resolveClaimQueueAmended
  rcases hq : truthyStr body.queue with _ | q
  · rcases hrf : body.role_filter with _ | rs
    · simp [hq, hrf]
    · rcases hh : rs.head? with _ | r0
      · simp [hq, hrf, hh]
      · rcases hfind : roles.find? fun r => r.name == r0 with _ | r
        · simp [hq, hrf, hh, hfind]
        · rcases hcf : truthyStr r.claims_from with _ | cf
          · simp [hq, hrf, hh, hfind, hcf]
          · simp [hq, hrf, hh, hfind, hcf]
  · rcases hrf : body.role_filter with _ | rs <;> simp [hq, hrf]

end Octopoid
